import Mathlib

/-!
Verification of the Pakyas terraform provider core: field normalization,
HTTP retry loop, resource accessors (CRUD with read-after-write), and the
per-resource reconciliation logic, shallowly embedded from the Go source.

Conventions of the embedding:
* A Go `*string` / `*int64` / `*bool` field is an `Option` value
  (`none` models a nil pointer).
* A Go `[]string` slice is `Option (List String)` where `none` models a
  nil slice and `some l` a non-nil slice with contents `l`.
* JSON serialization of a request struct is modelled as the ordered list
  of emitted object fields; a field carrying the `omitempty` tag is
  dropped exactly when its Go value is a zero value (nil pointer, nil or
  empty slice, `0`, `false`), mirroring `encoding/json`.
* The transport and the remote service are modelled as explicit oracles;
  accessor operations return their result together with the trace of
  network calls they issued.
-/

namespace Pakyas

/-! ## Tag and description normalization (internal/client) -/

/-- A `Decidable` instance for `String`'s lexicographic `≤` that reduces
by computation on the character lists (the library's iterator-based
instance does not evaluate inside the kernel). -/
def strLeDec (a b : String) : Decidable (a ≤ b) :=
  decidable_of_iff (¬ b.toList < a.toList)
    (not_congr String.lt_iff_toList_lt).symm

/-- `sort.Strings`: sort a list of strings in increasing lexicographic
order (equal strings are identical, so the sorted permutation is unique
and any correct sort agrees with insertion sort). -/
def sortStrings (l : List String) : List String :=
  @List.insertionSort String (· ≤ ·) strLeDec l

/-- `normalizeTags` from `internal/client/checks.go`: a nil slice becomes
the empty slice, otherwise the contents are copied and sorted. -/
def normalizeTags : Option (List String) → List String
  | none => []
  | some ts => sortStrings ts

/-- `normalizeDescription` from the project accessor file: a non-nil
pointer to the empty string becomes nil; everything else is unchanged. -/
def normalizeDescription : Option String → Option String
  | none => none
  | some d => if d = "" then none else some d

/-! ## Error taxonomy (internal/client error file) -/

/-- Errors surfaced by the client layer. `api` models `*APIError`
(status, best-effort extracted message, raw body); `net` models a
transport-level error from `http.Client.Do` or from reading the response
body; `maxRetriesExceeded` models
`fmt.Errorf("max retries exceeded: %w", lastErr)`; `conflict` models the
plain error built by `ConflictError(resourceType)`. -/
inductive ClientError where
  | api (status : Nat) (message : String) (body : String)
  | net (msg : String)
  | maxRetriesExceeded (last : ClientError)
  | conflict (kind : String)
deriving DecidableEq, Repr

/-- `IsConflict`: `errors.As` digs through `%w` wrapping looking for an
`*APIError` with status 409. The `conflict` constructor is a plain
formatted error, not an `APIError`, so it does not match. -/
def isConflictErr : ClientError → Bool
  | .api s _ _ => s == 409
  | .maxRetriesExceeded e => isConflictErr e
  | _ => false

/-- `IsNotFound`: `errors.As` search for an `*APIError` with status 404. -/
def isNotFoundErr : ClientError → Bool
  | .api s _ _ => s == 404
  | .maxRetriesExceeded e => isNotFoundErr e
  | _ => false

/-- Status-level retry eligibility used by `IsRetryable`: 429 or any 5xx. -/
def isRetryableStatus (s : Nat) : Bool := s == 429 || 500 ≤ s

/-! ## Transport layer: `doRequest` retry loop -/

/-- `MaxRetries = 5`. -/
def maxRetries : Nat := 5

/-- `BaseRetryDelay = 1 * time.Second`, in nanoseconds. -/
def baseRetryDelayNs : Nat := 1000000000

/-- Backoff delay before a retry:
`time.Duration(math.Pow(2, float64(attempt-1))) * BaseRetryDelay`. -/
def retryDelayNs (attempt : Nat) : Nat :=
  2 ^ (attempt - 1) * baseRetryDelayNs

/-- The wait performed at the top of loop iteration `attempt`: zero for
the first attempt, otherwise the exponential delay plus the jitter drawn
from `rand.Int63n(int64(delay / 2))`. -/
def waitBeforeNs (attempt : Nat) (jitter : Nat) : Nat :=
  if attempt = 0 then 0 else retryDelayNs attempt + jitter

/-- What one HTTP attempt can observe: a transport-level failure
(connection error or body-read error), or a response with a status code
and raw body. -/
inductive AttemptOutcome where
  | netErr (msg : String)
  | resp (status : Nat) (body : String)
deriving DecidableEq, Repr

/-- Result of one `doRequest` call, instrumented with the number of HTTP
attempts actually issued and the chronological list of
`(attempt index, wait before that attempt)` pairs. -/
structure DoRun where
  result : Except ClientError (Nat × String)
  attempts : Nat
  waits : List (Nat × Nat)
deriving Repr

/-- The body of `doRequest`'s `for attempt := 0; attempt <= MaxRetries`
loop, structurally recursing over the list of remaining attempt indices.
`responses` is the oracle for what each attempt observes, `extract`
models the best-effort JSON error-message extraction applied to an error
body, and `jitterFn` the random jitter drawn for each attempt.
`lastErr` is the running `lastErr` variable; falling off the list is the
loop exhausting and returning the `max retries exceeded` wrap. -/
def doRequestFromList (responses : Nat → AttemptOutcome)
    (extract : String → String) (jitterFn : Nat → Nat) :
    List Nat → Option ClientError → DoRun
  | [], lastErr =>
    { result := .error (.maxRetriesExceeded (lastErr.getD (.net "")))
      attempts := 0, waits := [] }
  | attempt :: rest, _ =>
    let w := waitBeforeNs attempt (jitterFn attempt)
    match responses attempt with
    | .netErr m =>
      let run := doRequestFromList responses extract jitterFn rest (some (.net m))
      { run with attempts := run.attempts + 1, waits := (attempt, w) :: run.waits }
    | .resp s b =>
      if 400 ≤ s then
        let e := ClientError.api s (extract b) b
        if isRetryableStatus s = true ∧ attempt < maxRetries then
          let run := doRequestFromList responses extract jitterFn rest (some e)
          { run with attempts := run.attempts + 1, waits := (attempt, w) :: run.waits }
        else { result := .error e, attempts := 1, waits := [(attempt, w)] }
      else { result := .ok (s, b), attempts := 1, waits := [(attempt, w)] }

/-- One logical `doRequest` call: at most `MaxRetries + 1 = 6` attempts,
starting from attempt index 0 with no recorded error. -/
def doRequest (responses : Nat → AttemptOutcome) (extract : String → String)
    (jitterFn : Nat → Nat) : DoRun :=
  doRequestFromList responses extract jitterFn (List.range (maxRetries + 1)) none

/-- An attempt outcome on which the loop continues to the next attempt
(when one remains): a network-level failure, or an HTTP error status that
is retry-eligible (429 / 5xx). -/
def attemptFails (o : AttemptOutcome) : Prop :=
  (∃ m, o = .netErr m) ∨
    ∃ s b, o = .resp s b ∧ 400 ≤ s ∧ isRetryableStatus s = true

/-- The error recorded in `lastErr` for a failing attempt outcome. -/
def errOf (extract : String → String) : AttemptOutcome → ClientError
  | .netErr m => .net m
  | .resp s b => .api s (extract b) b

/-- Whether a `doRequest` result is the `max retries exceeded` wrap. -/
def isMaxRetriesResult : Except ClientError (Nat × String) → Bool
  | .error (.maxRetriesExceeded _) => true
  | _ => false

/-! ## JSON field rendering (`encoding/json` with struct tags) -/

/-- A JSON value, as much of it as the request bodies need. -/
inductive JsonVal where
  | str (s : String)
  | int (n : Int)
  | bool (b : Bool)
  | arr (elems : List JsonVal)
deriving Repr

/-- A serialized JSON object, as its ordered field list. -/
abbrev JsonFields := List (String × JsonVal)

/-- Render an `omitempty` field backed by a Go pointer: a nil pointer is
omitted, any non-nil pointer (including one to a zero value) is kept. -/
def optField (k : String) : Option JsonVal → JsonFields
  | none => []
  | some v => [(k, v)]

/-- Render an `omitempty` field backed by a Go slice: both a nil slice
and an empty slice are omitted. -/
def sliceField (k : String) : Option (List String) → JsonFields
  | none => []
  | some [] => []
  | some ts => [(k, .arr (ts.map .str))]

def lookupField (p : JsonFields) (k : String) : Option JsonVal :=
  (p.find? (fun x => x.1 == k)).map Prod.snd

def hasField (p : JsonFields) (k : String) : Bool :=
  p.any (fun x => x.1 == k)

/-! ## Data model and request shapes (internal/client) -/

/-- `client.Check` (timestamps abstracted to integers; the claims never
inspect their formatting). -/
structure Check where
  id : String
  projectId : String
  name : String
  slug : String
  periodSeconds : Int
  graceSeconds : Int
  description : Option String
  tags : Option (List String)
  paused : Bool
  publicId : String
  status : String
  createdAt : Int
  deletedAt : Option Int
deriving DecidableEq, Repr

/-- `client.Project`. -/
structure Project where
  id : String
  orgId : String
  name : String
  description : Option String
  createdAt : Int
  updatedAt : Int
  archivedAt : Option Int
deriving DecidableEq, Repr

/-- `client.CreateCheckRequest`. -/
structure CreateCheckRequest where
  projectId : String
  name : String
  slug : String
  periodSeconds : Int
  graceSeconds : Int
  description : Option String
  tags : Option (List String)
  paused : Bool
deriving DecidableEq, Repr

/-- `client.UpdateCheckRequest` (PATCH-style partial payload). -/
structure UpdateCheckRequest where
  name : Option String
  periodSeconds : Option Int
  graceSeconds : Option Int
  description : Option String
  tags : Option (List String)
  paused : Option Bool
deriving DecidableEq, Repr

/-- `client.CreateProjectRequest`. -/
structure CreateProjectRequest where
  orgId : String
  name : String
  description : Option String
deriving DecidableEq, Repr

/-- `client.UpdateProjectRequest`. -/
structure UpdateProjectRequest where
  name : Option String
  description : Option String
deriving DecidableEq, Repr

/-- JSON body of a check create: `project_id`, `name`, `slug` and
`period_seconds` are unconditional; `grace_seconds`, `description`,
`tags` and `paused` carry `omitempty`. -/
def createCheckRequestJson (r : CreateCheckRequest) : JsonFields :=
  [("project_id", .str r.projectId), ("name", .str r.name),
    ("slug", .str r.slug), ("period_seconds", .int r.periodSeconds)] ++
  (if r.graceSeconds = 0 then [] else [("grace_seconds", .int r.graceSeconds)]) ++
  optField "description" (r.description.map .str) ++
  sliceField "tags" r.tags ++
  (if r.paused then [("paused", .bool true)] else [])

/-- JSON body of a check update: every field carries `omitempty`. -/
def updateCheckRequestJson (r : UpdateCheckRequest) : JsonFields :=
  optField "name" (r.name.map .str) ++
  optField "period_seconds" (r.periodSeconds.map .int) ++
  optField "grace_seconds" (r.graceSeconds.map .int) ++
  optField "description" (r.description.map .str) ++
  sliceField "tags" r.tags ++
  optField "paused" (r.paused.map .bool)

/-- JSON body of a project update: both fields carry `omitempty`. -/
def updateProjectRequestJson (r : UpdateProjectRequest) : JsonFields :=
  optField "name" (r.name.map .str) ++
  optField "description" (r.description.map .str)

/-! ## Resource accessors (internal/client), over a remote oracle -/

/-- The normalization `CreateCheck` applies to its request before the
POST: `req.Description = normalizeDescription(req.Description)` and
`req.Tags = normalizeTags(req.Tags)` (the latter always yields a non-nil
slice). -/
def normalizeCreateCheckRequest (r : CreateCheckRequest) : CreateCheckRequest :=
  { r with description := normalizeDescription r.description
           tags := some (normalizeTags r.tags) }

/-- The normalization `UpdateCheck` applies before the PUT. -/
def normalizeUpdateCheckRequest (r : UpdateCheckRequest) : UpdateCheckRequest :=
  { r with description := normalizeDescription r.description
           tags := some (normalizeTags r.tags) }

/-- The remote service as seen through `doRequest`, one typed oracle per
check endpoint. -/
structure CheckApi where
  post : CreateCheckRequest → Except ClientError Check
  getById : String → Except ClientError Check
  put : String → UpdateCheckRequest → Except ClientError Unit
  deleteById : String → Except ClientError Unit

/-- The remote service oracles for the project endpoints. -/
structure ProjectApi where
  post : CreateProjectRequest → Except ClientError Project
  getById : String → Except ClientError Project
  put : String → UpdateProjectRequest → Except ClientError Unit
  deleteById : String → Except ClientError Unit

/-- One network call issued by a check accessor. -/
inductive CheckCall where
  | post (req : CreateCheckRequest)
  | fetch (id : String)
  | put (id : String) (req : UpdateCheckRequest)
  | del (id : String)
deriving DecidableEq, Repr

/-- One network call issued by a project accessor. -/
inductive ProjectCall where
  | post (req : CreateProjectRequest)
  | fetch (id : String)
  | put (id : String) (req : UpdateProjectRequest)
  | del (id : String)
deriving DecidableEq, Repr

/-- `GetCheck`: GET by id, then normalize the returned tags. -/
def getCheck (api : CheckApi) (id : String) :
    Except ClientError Check × List CheckCall :=
  match api.getById id with
  | .error e => (.error e, [.fetch id])
  | .ok c => (.ok { c with tags := some (normalizeTags c.tags) }, [.fetch id])

/-- `CreateCheck`: normalize, POST, translate a conflict into the
`check already exists` error, then read back via `GetCheck`. -/
def createCheck (api : CheckApi) (req : CreateCheckRequest) :
    Except ClientError Check × List CheckCall :=
  let req' := normalizeCreateCheckRequest req
  match api.post req' with
  | .error e =>
    (if isConflictErr e then .error (.conflict "check") else .error e,
      [.post req'])
  | .ok c =>
    let r := getCheck api c.id
    (r.1, .post req' :: r.2)

/-- `UpdateCheck`: normalize, PUT, then read back via `GetCheck`. -/
def updateCheck (api : CheckApi) (id : String) (req : UpdateCheckRequest) :
    Except ClientError Check × List CheckCall :=
  let req' := normalizeUpdateCheckRequest req
  match api.put id req' with
  | .error e => (.error e, [.put id req'])
  | .ok _ =>
    let r := getCheck api id
    (r.1, .put id req' :: r.2)

/-- `DeleteCheck`: a bare DELETE. -/
def deleteCheck (api : CheckApi) (id : String) :
    Except ClientError Unit × List CheckCall :=
  (api.deleteById id, [.del id])

/-- `GetProject`: a bare GET by id. -/
def getProject (api : ProjectApi) (id : String) :
    Except ClientError Project × List ProjectCall :=
  (api.getById id, [.fetch id])

/-- The request `CreateProject` sends: the cached org id, the given
name, and the normalized description. -/
def buildCreateProjectRequest (orgId name : String)
    (description : Option String) : CreateProjectRequest :=
  { orgId := orgId, name := name
    description := normalizeDescription description }

/-- `CreateProject`: build the request with the cached org id and the
normalized description, POST, translate a conflict into the
`project already exists` error, then read back via `GetProject`. -/
def createProject (api : ProjectApi) (orgId name : String)
    (description : Option String) :
    Except ClientError Project × List ProjectCall :=
  let req := buildCreateProjectRequest orgId name description
  match api.post req with
  | .error e =>
    (if isConflictErr e then .error (.conflict "project") else .error e,
      [.post req])
  | .ok p =>
    let r := getProject api p.id
    (r.1, .post req :: r.2)

/-- The request `UpdateProject` sends: the name pointer as given, the
description pointer normalized. -/
def buildUpdateProjectRequest (name description : Option String) :
    UpdateProjectRequest :=
  { name := name, description := normalizeDescription description }

/-- `UpdateProject`: PUT the partial request, then read back. -/
def updateProject (api : ProjectApi) (id : String)
    (name description : Option String) :
    Except ClientError Project × List ProjectCall :=
  let req := buildUpdateProjectRequest name description
  match api.put id req with
  | .error e => (.error e, [.put id req])
  | .ok _ =>
    let r := getProject api id
    (r.1, .put id req :: r.2)

/-- `DeleteProject`: a bare DELETE (archive). -/
def deleteProject (api : ProjectApi) (id : String) :
    Except ClientError Unit × List ProjectCall :=
  (api.deleteById id, [.del id])

/-! ## Reconciler layer (internal/resources) -/

/-- `CheckResourceModel`, the tracked state: `description` and `tags` are
nullable attributes (`none` models a null value), `pingUrl` is computed. -/
structure CheckModel where
  id : String
  projectId : String
  name : String
  slug : String
  periodSeconds : Int
  graceSeconds : Int
  description : Option String
  tags : Option (List String)
  paused : Bool
  publicId : String
  pingUrl : String
  status : String
  createdAt : Int
deriving DecidableEq, Repr

/-- `ProjectResourceModel`. -/
structure ProjectModel where
  id : String
  orgId : String
  name : String
  description : Option String
  createdAt : Int
  updatedAt : Int
deriving DecidableEq, Repr

/-- `types.Set.Equal` on two tag sets: null equals only null, and two
known sets are equal exactly when they hold the same elements regardless
of order (terraform sets are duplicate-free, so comparing the sorted
element lists is that set equality). -/
def tagsSetEqual (a b : Option (List String)) : Bool :=
  match a, b with
  | none, none => true
  | some x, some y => decide (sortStrings x = sortStrings y)
  | _, _ => false

/-- `mapCheckToModel`: copy the server-authoritative fields, compute the
ping URL from the cached base and the public id, keep a null description
null, and map the tag list to a null set when it is empty. -/
def mapCheckToModel (pingURLBase : String) (c : Check) : CheckModel :=
  { id := c.id, projectId := c.projectId, name := c.name, slug := c.slug,
    periodSeconds := c.periodSeconds, graceSeconds := c.graceSeconds,
    paused := c.paused, publicId := c.publicId, status := c.status,
    createdAt := c.createdAt,
    pingUrl := pingURLBase ++ "/" ++ c.publicId,
    description := c.description,
    tags := if (c.tags.getD []).length > 0 then some (c.tags.getD []) else none }

/-- The project model mapping used after Create/Read/Update. -/
def mapProjectToModel (p : Project) : ProjectModel :=
  { id := p.id, orgId := p.orgId, name := p.name,
    description := p.description, createdAt := p.createdAt,
    updatedAt := p.updatedAt }

/-- Project update diff, name field: included only when the planned name
differs from the previously-observed one. -/
def projectUpdateNameArg (plan state : String) : Option String :=
  if plan = state then none else some plan

/-- Project update diff, description field: included only on change, and
a planned null description becomes an explicit empty-string marker meant
to clear the server-side value. -/
def projectUpdateDescArg (plan state : Option String) : Option String :=
  if plan = state then none
  else match plan with
    | none => some ""
    | some d => some d

/-- The JSON body a project update actually sends for a given
plan/state pair, after the accessor's description normalization. -/
def projectUpdateSentPayload (planName stateName : String)
    (planDesc stateDesc : Option String) : JsonFields :=
  updateProjectRequestJson
    (buildUpdateProjectRequest (projectUpdateNameArg planName stateName)
      (projectUpdateDescArg planDesc stateDesc))

/-- `CheckResource.Update`'s diff computation: each updatable field is
included exactly when plan and state differ on it, with a planned null
description turning into the empty-string clear marker and a planned
null tag set extracting to a nil slice. -/
def buildUpdateCheckRequest (plan state : CheckModel) : UpdateCheckRequest :=
  { name := if plan.name = state.name then none else some plan.name
    periodSeconds :=
      if plan.periodSeconds = state.periodSeconds then none
      else some plan.periodSeconds
    graceSeconds :=
      if plan.graceSeconds = state.graceSeconds then none
      else some plan.graceSeconds
    description :=
      if plan.description = state.description then none
      else some (plan.description.getD "")
    tags := if tagsSetEqual plan.tags state.tags then none else plan.tags
    paused := if plan.paused = state.paused then none else some plan.paused }

/-- The JSON body a check update actually sends for a given plan/state
pair, after the accessor's normalization. -/
def checkUpdateSentPayload (plan state : CheckModel) : JsonFields :=
  updateCheckRequestJson
    (normalizeUpdateCheckRequest (buildUpdateCheckRequest plan state))

/-- Outcome of a reconciler operation on tracked state. -/
inductive ReconcileOutcome (μ : Type) where
  | removed
  | updated (m : μ)
  | failed
deriving DecidableEq, Repr

/-- `CheckResource.Read`: not-found removes the resource from state,
any other error is a diagnostic, success maps the fresh GET into state. -/
def checkResourceRead (api : CheckApi) (pingURLBase : String)
    (st : CheckModel) : ReconcileOutcome CheckModel :=
  match (getCheck api st.id).1 with
  | .error e => if isNotFoundErr e then .removed else .failed
  | .ok c => .updated (mapCheckToModel pingURLBase c)

/-- `CheckResource.Update`: diff, PUT, read back; every accessor error is
a terminal diagnostic (no not-found special case). -/
def checkResourceUpdate (api : CheckApi) (pingURLBase : String)
    (plan state : CheckModel) : ReconcileOutcome CheckModel :=
  match (updateCheck api state.id (buildUpdateCheckRequest plan state)).1 with
  | .error _ => .failed
  | .ok c => .updated (mapCheckToModel pingURLBase c)

/-- `CheckResource.Delete`: not-found counts as success (already
deleted); `true` means the operation succeeded. -/
def checkResourceDelete (api : CheckApi) (st : CheckModel) : Bool :=
  match (deleteCheck api st.id).1 with
  | .error e => isNotFoundErr e
  | .ok _ => true

/-- `ProjectResource.Read`. -/
def projectResourceRead (api : ProjectApi) (st : ProjectModel) :
    ReconcileOutcome ProjectModel :=
  match (getProject api st.id).1 with
  | .error e => if isNotFoundErr e then .removed else .failed
  | .ok p => .updated (mapProjectToModel p)

/-- `ProjectResource.Update`. -/
def projectResourceUpdate (api : ProjectApi) (plan state : ProjectModel) :
    ReconcileOutcome ProjectModel :=
  match (updateProject api state.id
      (projectUpdateNameArg plan.name state.name)
      (projectUpdateDescArg plan.description state.description)).1 with
  | .error _ => .failed
  | .ok p => .updated (mapProjectToModel p)

/-- `ProjectResource.Delete`. -/
def projectResourceDelete (api : ProjectApi) (st : ProjectModel) : Bool :=
  match (deleteProject api st.id).1 with
  | .error e => isNotFoundErr e
  | .ok _ => true

/-! ## Heap model of `normalizeTags` (copy semantics) -/

/-- A heap of string arrays, addressed by allocation index. -/
abbrev Store := List (List String)

/-- `make([]string, n)`: allocate a fresh zeroed array, returning the new
heap and the fresh reference. -/
def allocArray (σ : Store) (n : Nat) : Store × Nat :=
  (σ ++ [List.replicate n ""], σ.length)

/-- `copy(dst, src)` where `len(dst) = len(src)`: overwrite the
destination array with the source contents. -/
def copyInto (σ : Store) (dst : Nat) (src : List String) : Store :=
  σ.set dst src

/-- `sort.Strings(arr)`: sort the addressed array in place. -/
def sortInPlace (σ : Store) (r : Nat) : Store :=
  σ.set r (sortStrings (σ.getD r []))

/-- `normalizeTags` at the heap level, line by line: a nil slice
allocates a fresh empty array; otherwise allocate `sorted`, copy the
source contents into it and sort it in place, never touching the source
array. Returns the new heap and the reference to the result. -/
def normalizeTagsHeap (σ : Store) (t : Option Nat) : Store × Nat :=
  match t with
  | none => allocArray σ 0
  | some src =>
    let contents := σ.getD src []
    let a := allocArray σ contents.length
    let σ2 := copyInto a.1 a.2 contents
    let σ3 := sortInPlace σ2 a.2
    (σ3, a.2)

/-! ## Concrete fixtures for closed-instance theorems -/

/-- A tracked check state with no tags and a non-null description. -/
def exampleCheckState : CheckModel :=
  { id := "chk-1", projectId := "prj-1", name := "Daily Backup",
    slug := "daily-backup", periodSeconds := 86400, graceSeconds := 3600,
    description := some "Daily database backup job", tags := none,
    paused := false, publicId := "pub-1",
    pingUrl := "https://ping.pakyas.com/pub-1", status := "up",
    createdAt := 0 }

/-- The same tracked state, with one tag. -/
def exampleCheckStateTagged : CheckModel :=
  { exampleCheckState with tags := some ["backup"] }

/-- A plan clearing the tags of `exampleCheckStateTagged`. -/
def exampleCheckPlanTagsCleared : CheckModel :=
  { exampleCheckStateTagged with tags := some [] }

/-- A create request declaring no tags and no description. -/
def exampleCreateCheckReq : CreateCheckRequest :=
  { projectId := "prj-1", name := "Health Monitor",
    slug := "health-monitor", periodSeconds := 300, graceSeconds := 60,
    description := none, tags := none, paused := false }

/-- A remote check whose (normalized) tag list is empty. -/
def exampleCheckEmptyTags : Check :=
  { id := "chk-2", projectId := "prj-1", name := "Health Monitor",
    slug := "health-monitor", periodSeconds := 300, graceSeconds := 60,
    description := none, tags := some [], paused := false,
    publicId := "pub-2", status := "new", createdAt := 0,
    deletedAt := none }

/-- A simple partial check update request. -/
def exampleUpdateCheckReq : UpdateCheckRequest :=
  { name := some "Renamed", periodSeconds := none, graceSeconds := none,
    description := none, tags := none, paused := none }

/-- A tracked project state. -/
def exampleProjectModel : ProjectModel :=
  { id := "prj-1", orgId := "org-1", name := "Production",
    description := none, createdAt := 0, updatedAt := 0 }

/-- A check endpoint oracle answering 409 Conflict everywhere. -/
def conflictCheckApi : CheckApi :=
  { post := fun _ => .error (.api 409 "already exists" "")
    getById := fun _ => .error (.api 409 "already exists" "")
    put := fun _ _ => .error (.api 409 "already exists" "")
    deleteById := fun _ => .error (.api 409 "already exists" "") }

/-- A project endpoint oracle answering 409 Conflict everywhere. -/
def conflictProjectApi : ProjectApi :=
  { post := fun _ => .error (.api 409 "already exists" "")
    getById := fun _ => .error (.api 409 "already exists" "")
    put := fun _ _ => .error (.api 409 "already exists" "")
    deleteById := fun _ => .error (.api 409 "already exists" "") }

/-- A check endpoint oracle answering 404 Not Found everywhere. -/
def notFoundCheckApi : CheckApi :=
  { post := fun _ => .error (.api 404 "not found" "")
    getById := fun _ => .error (.api 404 "not found" "")
    put := fun _ _ => .error (.api 404 "not found" "")
    deleteById := fun _ => .error (.api 404 "not found" "") }

/-- A project endpoint oracle answering 404 Not Found everywhere. -/
def notFoundProjectApi : ProjectApi :=
  { post := fun _ => .error (.api 404 "not found" "")
    getById := fun _ => .error (.api 404 "not found" "")
    put := fun _ _ => .error (.api 404 "not found" "")
    deleteById := fun _ => .error (.api 404 "not found" "") }

/-- The sparsely populated check a write endpoint echoes back. -/
def rawWriteCheck : Check :=
  { id := "chk-9", projectId := "prj-1", name := "raw", slug := "raw",
    periodSeconds := 300, graceSeconds := 0, description := none,
    tags := none, paused := false, publicId := "", status := "",
    createdAt := 0, deletedAt := none }

/-- The fully server-populated check a subsequent GET returns. -/
def canonicalCheck : Check :=
  { id := "chk-9", projectId := "prj-1", name := "Health Monitor",
    slug := "health-monitor", periodSeconds := 300, graceSeconds := 60,
    description := some "canonical", tags := some ["db", "backup"],
    paused := false, publicId := "pub-9", status := "new",
    createdAt := 7, deletedAt := none }

/-- Check oracles where writes succeed with the sparse echo and reads
return the canonical resource. -/
def okCheckApi : CheckApi :=
  { post := fun _ => .ok rawWriteCheck
    getById := fun _ => .ok canonicalCheck
    put := fun _ _ => .ok ()
    deleteById := fun _ => .ok () }

/-- The sparsely populated project a write endpoint echoes back. -/
def rawWriteProject : Project :=
  { id := "prj-9", orgId := "org-1", name := "raw", description := none,
    createdAt := 0, updatedAt := 0, archivedAt := none }

/-- The fully server-populated project a subsequent GET returns. -/
def canonicalProject : Project :=
  { id := "prj-9", orgId := "org-1", name := "Production",
    description := some "Production cron jobs", createdAt := 3,
    updatedAt := 5, archivedAt := none }

/-- Project oracles where writes succeed with the sparse echo and reads
return the canonical resource. -/
def okProjectApi : ProjectApi :=
  { post := fun _ => .ok rawWriteProject
    getById := fun _ => .ok canonicalProject
    put := fun _ _ => .ok ()
    deleteById := fun _ => .ok () }

theorem strLeDec_eq : strLeDec = @String.decidableLE :=
  funext fun _ => funext fun _ => Subsingleton.elim _ _

theorem sortStrings_eq (l : List String) :
    sortStrings l = List.insertionSort (· ≤ ·) l := by
  rw [sortStrings, strLeDec_eq]

theorem sortStrings_sorted (l : List String) :
    List.Sorted (· ≤ ·) (sortStrings l) := by
  rw [sortStrings_eq]
  exact List.sorted_insertionSort _ l

theorem sortStrings_idem (l : List String) :
    sortStrings (sortStrings l) = sortStrings l := by
  rw [sortStrings_eq (sortStrings l)]
  exact (sortStrings_sorted l).insertionSort_eq

theorem doRequestFromList_step (responses : Nat → AttemptOutcome)
    (extract : String → String) (jitterFn : Nat → Nat) (a : Nat)
    (rest : List Nat) (last : Option ClientError) (ha : a < maxRetries)
    (hf : attemptFails (responses a)) :
    (doRequestFromList responses extract jitterFn (a :: rest) last).result =
      (doRequestFromList responses extract jitterFn rest
        (some (errOf extract (responses a)))).result := by
  rcases hf with ⟨m, hm⟩ | ⟨s, b, hsb, hs4, hsr⟩
  · simp [doRequestFromList, hm, errOf]
  · simp [doRequestFromList, hsb, hs4, hsr, ha, errOf]

theorem doRequestFromList_last_net (responses : Nat → AttemptOutcome)
    (extract : String → String) (jitterFn : Nat → Nat) (a : Nat)
    (last : Option ClientError) (m : String) (hr : responses a = .netErr m) :
    (doRequestFromList responses extract jitterFn [a] last).result =
      .error (.maxRetriesExceeded (.net m)) := by
  simp [doRequestFromList, hr]

theorem doRequestFromList_last_api (responses : Nat → AttemptOutcome)
    (extract : String → String) (jitterFn : Nat → Nat)
    (a : Nat) (last : Option ClientError) (s : Nat) (b : String)
    (hr : responses a = .resp s b) (hs4 : 400 ≤ s) (ha : maxRetries ≤ a) :
    (doRequestFromList responses extract jitterFn [a] last).result =
      .error (.api s (extract b) b) := by
  have : ¬ a < maxRetries := by omega
  simp [doRequestFromList, hr, hs4, this]

/-- Claim C2 (amended): when every attempt of a logical request fails, the
final result depends on the kind of the last failure. If the 6th attempt
fails at network level, `doRequest` returns the `max retries exceeded`
error wrapping that network error; but if the 6th attempt fails with an
HTTP error status (in particular a retryable 429/5xx), `doRequest`
returns that API error itself, not the `max retries exceeded` wrap. -/
theorem doRequest_exhaustion (responses : Nat → AttemptOutcome)
    (extract : String → String) (jitterFn : Nat → Nat)
    (hf : ∀ i, i < 5 → attemptFails (responses i)) :
    (∀ m, responses 5 = .netErr m →
      (doRequest responses extract jitterFn).result =
        .error (.maxRetriesExceeded (.net m))) ∧
    (∀ s b, responses 5 = .resp s b → 400 ≤ s →
      (doRequest responses extract jitterFn).result =
        .error (.api s (extract b) b)) := by
  have hd : doRequest responses extract jitterFn =
      doRequestFromList responses extract jitterFn [0, 1, 2, 3, 4, 5] none := rfl
  have key : (doRequestFromList responses extract jitterFn
      [0, 1, 2, 3, 4, 5] none).result =
      (doRequestFromList responses extract jitterFn [5]
        (some (errOf extract (responses 4)))).result := by
    rw [doRequestFromList_step responses extract jitterFn 0 _ _ (by decide)
        (hf 0 (by omega)),
      doRequestFromList_step responses extract jitterFn 1 _ _ (by decide)
        (hf 1 (by omega)),
      doRequestFromList_step responses extract jitterFn 2 _ _ (by decide)
        (hf 2 (by omega)),
      doRequestFromList_step responses extract jitterFn 3 _ _ (by decide)
        (hf 3 (by omega)),
      doRequestFromList_step responses extract jitterFn 4 _ _ (by decide)
        (hf 4 (by omega))]
  constructor
  · intro m hm
    rw [hd, key, doRequestFromList_last_net responses extract jitterFn 5 _ m hm]
  · intro s b hsb hs4
    rw [hd, key, doRequestFromList_last_api responses extract jitterFn 5 _ s b hsb
      hs4 (by decide)]

/-- Witness for claim C2's amended theorem: six straight connection
failures end in the `max retries exceeded` wrap of the last one, while
six straight 503 responses end in the bare 503 API error. -/
theorem doRequest_exhaustion_witness :
    (doRequest (fun _ => .netErr "conn refused") (fun b => b)
      (fun _ => 0)).result =
        .error (.maxRetriesExceeded (.net "conn refused")) ∧
    (doRequest (fun _ => .resp 503 "boom") (fun b => b)
      (fun _ => 0)).result = .error (.api 503 "boom" "boom") := by
  constructor
  · exact (doRequest_exhaustion (fun _ => .netErr "conn refused") (fun b => b)
      (fun _ => 0) (fun i _ => Or.inl ⟨"conn refused", rfl⟩)).1
      "conn refused" rfl
  · exact (doRequest_exhaustion (fun _ => .resp 503 "boom") (fun b => b)
      (fun _ => 0)
      (fun i _ => Or.inr ⟨503, "boom", rfl, by omega, by decide⟩)).2
      503 "boom" rfl (by omega)

/-- Counterexample to claim C2 as stated: with every one of the 6 attempts
answering a retryable 503, the result is the bare API error, not a
`max retries exceeded` error wrapping it. -/
theorem doRequest_exhaustion_counterexample :
    (doRequest (fun _ => .resp 503 "boom") (fun b => b)
      (fun _ => 0)).result = .error (.api 503 "boom" "boom") ∧
    isMaxRetriesResult (doRequest (fun _ => .resp 503 "boom") (fun b => b)
      (fun _ => 0)).result = false := by
  exact ⟨rfl, rfl⟩

theorem doRequestFromList_attempts_le (responses : Nat → AttemptOutcome)
    (extract : String → String) (jitterFn : Nat → Nat) :
    ∀ (l : List Nat) (last : Option ClientError),
      (doRequestFromList responses extract jitterFn l last).attempts ≤ l.length := by
  intro l
  induction l with
  | nil => intro last; simp [doRequestFromList]
  | cons a rest ih =>
    intro last
    cases hr : responses a with
    | netErr m =>
      simpa [doRequestFromList, hr] using Nat.succ_le_succ (ih _)
    | resp s b =>
      by_cases h4 : 400 ≤ s
      · by_cases hrc : isRetryableStatus s = true ∧ a < maxRetries
        · simpa [doRequestFromList, hr, h4, hrc] using Nat.succ_le_succ (ih _)
        · simp [doRequestFromList, hr, h4, hrc]
      · simp [doRequestFromList, hr, h4]

theorem doRequestFromList_waits_mem (responses : Nat → AttemptOutcome)
    (extract : String → String) (jitterFn : Nat → Nat) :
    ∀ (l : List Nat) (last : Option ClientError) (p : Nat × Nat),
      p ∈ (doRequestFromList responses extract jitterFn l last).waits →
        p.1 ∈ l ∧ p.2 = waitBeforeNs p.1 (jitterFn p.1) := by
  intro l
  induction l with
  | nil => intro last p hp; simp [doRequestFromList] at hp
  | cons a rest ih =>
    intro last p hp
    cases hr : responses a with
    | netErr m =>
      simp only [doRequestFromList, hr] at hp
      rcases List.mem_cons.mp hp with h | h
      · subst h; exact ⟨List.mem_cons_self _ _, rfl⟩
      · rcases ih _ p h with ⟨h1, h2⟩
        exact ⟨List.mem_cons_of_mem _ h1, h2⟩
    | resp s b =>
      by_cases h4 : 400 ≤ s
      · by_cases hrc : isRetryableStatus s = true ∧ a < maxRetries
        · simp only [doRequestFromList, hr, h4, hrc, if_pos, and_self,
            if_true] at hp
          rcases List.mem_cons.mp hp with h | h
          · subst h; exact ⟨List.mem_cons_self _ _, rfl⟩
          · rcases ih _ p h with ⟨h1, h2⟩
            exact ⟨List.mem_cons_of_mem _ h1, h2⟩
        · simp [doRequestFromList, hr, h4, hrc] at hp
          subst hp; exact ⟨List.mem_cons_self _ _, rfl⟩
      · simp [doRequestFromList, hr, h4] at hp
        subst hp; exact ⟨List.mem_cons_self _ _, rfl⟩

/-- Claim C5: the first attempt waits zero; the wait before retry `i`
(`1 ≤ i ≤ 5`, i.e. before the `i+1`-st request) lies in
`[base * 2^(i-1), base * 2^(i-1) * 3/2)` given the jitter drawn from
`[0, delay/2)`; every wait the loop actually performs is of this shape
with attempt index at most 5; and a logical call issues at most 6
attempts. -/
theorem retryScheduleBounds (i jitter : Nat)
    (responses : Nat → AttemptOutcome) (extract : String → String)
    (jitterFn : Nat → Nat) (h1 : 1 ≤ i) (h5 : i ≤ 5)
    (hj : jitter < retryDelayNs i / 2) :
    (∀ j, waitBeforeNs 0 j = 0) ∧
    retryDelayNs i ≤ waitBeforeNs i jitter ∧
    waitBeforeNs i jitter < retryDelayNs i * 3 / 2 ∧
    (doRequest responses extract jitterFn).attempts ≤ 6 ∧
    (∀ p ∈ (doRequest responses extract jitterFn).waits,
      p.1 ≤ 5 ∧ p.2 = waitBeforeNs p.1 (jitterFn p.1)) := by
  refine ⟨fun j => rfl, ?_, ?_, ?_, ?_⟩
  · have : i ≠ 0 := by omega
    simp [waitBeforeNs, this]
  · have : i ≠ 0 := by omega
    simp only [waitBeforeNs, if_neg this]
    interval_cases i <;>
      simp [retryDelayNs, baseRetryDelayNs] at hj ⊢ <;> omega
  · have h := doRequestFromList_attempts_le responses extract jitterFn
      (List.range (maxRetries + 1)) none
    simpa [doRequest, maxRetries] using h
  · intro p hp
    have h := doRequestFromList_waits_mem responses extract jitterFn
      (List.range (maxRetries + 1)) none p hp
    rcases h with ⟨h1, h2⟩
    refine ⟨?_, h2⟩
    have h6 : p.1 < 6 := by simpa [maxRetries] using List.mem_range.mp h1
    omega

/-- Witness for claim C5 at retry 1 with zero jitter: the wait is exactly
one second and lies in `[1s, 1.5s)`, and a call with immediate success
makes at most 6 attempts. -/
theorem retryScheduleBounds_witness :
    (1 ≤ 1 ∧ (1 : Nat) ≤ 5 ∧ 0 < retryDelayNs 1 / 2) ∧
    (retryDelayNs 1 ≤ waitBeforeNs 1 0 ∧
      waitBeforeNs 1 0 < retryDelayNs 1 * 3 / 2 ∧
      (doRequest (fun _ => .resp 200 "ok") (fun b => b)
        (fun _ => 0)).attempts ≤ 6) := by
  have h := retryScheduleBounds 1 0 (fun _ => .resp 200 "ok") (fun b => b)
    (fun _ => 0) (by decide) (by decide) (by decide)
  exact ⟨⟨by decide, by decide, by decide⟩, h.2.1, h.2.2.1, h.2.2.2.1⟩

/-- Claim C9: `normalizeTags` is idempotent, and maps both a nil slice and
the empty slice to the empty slice, never to an absent representation. -/
theorem normalizeTags_idem_and_empty (t : Option (List String)) :
    normalizeTags (some (normalizeTags t)) = normalizeTags t ∧
    normalizeTags none = [] ∧ normalizeTags (some []) = [] := by
  refine ⟨?_, rfl, rfl⟩
  cases t with
  | none => rfl
  | some ts => exact sortStrings_idem ts

/-- Claim C1: clearing a description (planned value null, previously
observed value non-null) is supposed to transmit an explicit empty-string
marker. The diff computation in both resources does produce the `""`
marker, but the accessor's `normalizeDescription` turns it back into a
nil pointer and `omitempty` then drops the field, so the payload sent for
such an update contains no description field at all — for the project and
for the check alike. -/
theorem descriptionClearDropped :
    projectUpdateDescArg none (some "Production cron jobs") = some "" ∧
    hasField (projectUpdateSentPayload "Production" "Production" none
      (some "Production cron jobs")) "description" = false ∧
    (buildUpdateCheckRequest { exampleCheckState with description := none }
      exampleCheckState).description = some "" ∧
    hasField (checkUpdateSentPayload
      { exampleCheckState with description := none }
      exampleCheckState) "description" = false :=
  ⟨rfl, rfl, rfl, rfl⟩

/-- Claim C4: the update payload is supposed to contain a field exactly
when plan and state differ on it, including tags going from non-empty to
empty. At such an input the diff computation does record the changed
(empty) tag list, but `normalizeTags` keeps it an empty slice and
`omitempty` drops empty slices, so the transmitted payload has no tags
field although the desired value differs from the observed one. -/
theorem tagsClearDropped :
    tagsSetEqual exampleCheckPlanTagsCleared.tags
      exampleCheckStateTagged.tags = false ∧
    (buildUpdateCheckRequest exampleCheckPlanTagsCleared
      exampleCheckStateTagged).tags = some [] ∧
    hasField (checkUpdateSentPayload exampleCheckPlanTagsCleared
      exampleCheckStateTagged) "tags" = false :=
  ⟨rfl, rfl, rfl⟩

/-- Counterexample to claim C3 as stated: a check created with no tag
declaration sends a payload with no tags field at all (`omitempty` drops
the normalized empty slice), and a check read back with an empty tag
list is tracked with a null tag set, not an empty sequence. -/
theorem checkTagsEmpty_counterexample :
    hasField (createCheckRequestJson
      (normalizeCreateCheckRequest exampleCreateCheckReq)) "tags" = false ∧
    (mapCheckToModel "https://ping.pakyas.com" exampleCheckEmptyTags).tags
      = none :=
  ⟨rfl, rfl⟩

/-- Claim C3 (amended): in create and update payloads the tags field,
when present, is exactly the lexicographically sorted normalized tag
list, and it is present exactly when that list is non-empty — an empty
or absent declaration yields no tags field; on read-back the tracked
tag set is null exactly when the returned tag list is empty. -/
theorem checkTagsRepresentation (req : CreateCheckRequest)
    (r : UpdateCheckRequest) (base : String) (c : Check) :
    lookupField (createCheckRequestJson (normalizeCreateCheckRequest req))
        "tags" =
      (if normalizeTags req.tags = [] then none
        else some (.arr ((normalizeTags req.tags).map .str))) ∧
    lookupField (updateCheckRequestJson (normalizeUpdateCheckRequest r))
        "tags" =
      (if normalizeTags r.tags = [] then none
        else some (.arr ((normalizeTags r.tags).map .str))) ∧
    List.Sorted (· ≤ ·) (normalizeTags req.tags) ∧
    (mapCheckToModel base c).tags =
      (if c.tags.getD [] = [] then none else some (c.tags.getD [])) := by
  refine ⟨?_, ?_, ?_, ?_⟩
  · by_cases hg : req.graceSeconds = 0 <;>
      cases hnd : normalizeDescription req.description <;>
      cases hnt : normalizeTags req.tags <;>
      by_cases hp : req.paused <;>
      simp [createCheckRequestJson, normalizeCreateCheckRequest,
        lookupField, optField, sliceField, hg, hnd, hnt, hp]
  · cases hnn : r.name <;>
      cases hnp : r.periodSeconds <;>
      cases hng : r.graceSeconds <;>
      cases hnd : normalizeDescription r.description <;>
      cases hnt : normalizeTags r.tags <;>
      cases hnb : r.paused <;>
      simp [updateCheckRequestJson, normalizeUpdateCheckRequest,
        lookupField, optField, sliceField, hnn, hnp, hng, hnd, hnt, hnb]
  · cases ht : req.tags with
    | none => simp [normalizeTags]
    | some ts => exact sortStrings_sorted ts
  · by_cases hct : c.tags.getD [] = []
    · simp [mapCheckToModel, hct]
    · simp [mapCheckToModel, hct, List.length_pos.mpr hct]

/-- Claim C6: a 409 on the create POST yields the conflict error naming
the resource kind and the operation issues no further network call (the
trace is that single POST, no read-after-write GET); every other
operation propagates a 409 unchanged, so the conflict translation lives
only in the create path. -/
theorem conflictOnlyOnCreate (capi : CheckApi) (papi : ProjectApi)
    (req : CreateCheckRequest) (orgId pname : String)
    (pdesc : Option String) (cid pid : String) (ur : UpdateCheckRequest)
    (pn pd : Option String) :
    (∀ m b, capi.post (normalizeCreateCheckRequest req) =
        .error (.api 409 m b) →
      createCheck capi req =
        (.error (.conflict "check"),
          [.post (normalizeCreateCheckRequest req)])) ∧
    (∀ m b, papi.post (buildCreateProjectRequest orgId pname pdesc) =
        .error (.api 409 m b) →
      createProject papi orgId pname pdesc =
        (.error (.conflict "project"),
          [.post (buildCreateProjectRequest orgId pname pdesc)])) ∧
    (∀ m b, capi.getById cid = .error (.api 409 m b) →
      (getCheck capi cid).1 = .error (.api 409 m b)) ∧
    (∀ m b, capi.put cid (normalizeUpdateCheckRequest ur) =
        .error (.api 409 m b) →
      (updateCheck capi cid ur).1 = .error (.api 409 m b)) ∧
    (∀ m b, capi.deleteById cid = .error (.api 409 m b) →
      (deleteCheck capi cid).1 = .error (.api 409 m b)) ∧
    (∀ m b, papi.getById pid = .error (.api 409 m b) →
      (getProject papi pid).1 = .error (.api 409 m b)) ∧
    (∀ m b, papi.put pid (buildUpdateProjectRequest pn pd) =
        .error (.api 409 m b) →
      (updateProject papi pid pn pd).1 = .error (.api 409 m b)) ∧
    (∀ m b, papi.deleteById pid = .error (.api 409 m b) →
      (deleteProject papi pid).1 = .error (.api 409 m b)) := by
  refine ⟨fun m b h => ?_, fun m b h => ?_, fun m b h => ?_,
    fun m b h => ?_, fun m b h => ?_, fun m b h => ?_, fun m b h => ?_,
    fun m b h => ?_⟩
  · simp [createCheck, h, isConflictErr]
  · simp [createProject, h, isConflictErr]
  · simp [getCheck, h]
  · simp [updateCheck, h]
  · simp [deleteCheck, h]
  · simp [getProject, h]
  · simp [updateProject, h]
  · simp [deleteProject, h]

/-- Witness for claim C6: against oracles that answer 409 everywhere,
creating a check or a project stops after the one POST with the
kind-naming conflict error, while a plain GET propagates the API error
unchanged. -/
theorem conflictOnlyOnCreate_witness :
    createCheck conflictCheckApi exampleCreateCheckReq =
      (.error (.conflict "check"),
        [.post (normalizeCreateCheckRequest exampleCreateCheckReq)]) ∧
    createProject conflictProjectApi "org-1" "Production" none =
      (.error (.conflict "project"),
        [.post (buildCreateProjectRequest "org-1" "Production" none)]) ∧
    (getCheck conflictCheckApi "chk-1").1 =
      .error (.api 409 "already exists" "") := by
  have h := conflictOnlyOnCreate conflictCheckApi conflictProjectApi
    exampleCreateCheckReq "org-1" "Production" none "chk-1" "prj-1"
    exampleUpdateCheckReq none none
  exact ⟨h.1 "already exists" "" rfl, h.2.1 "already exists" "" rfl,
    h.2.2.1 "already exists" "" rfl⟩

/-- Claim C7: a 404 on read removes the resource from tracked state
(reported as absence, not an error); a 404 on delete is success; a 404
on update is a regular terminal failure — for both resource kinds. -/
theorem notFoundHandling (capi : CheckApi) (papi : ProjectApi)
    (base : String) (st plan : CheckModel) (pst pplan : ProjectModel) :
    (∀ m b, capi.getById st.id = .error (.api 404 m b) →
      checkResourceRead capi base st = .removed) ∧
    (∀ m b, papi.getById pst.id = .error (.api 404 m b) →
      projectResourceRead papi pst = .removed) ∧
    (∀ m b, capi.deleteById st.id = .error (.api 404 m b) →
      checkResourceDelete capi st = true) ∧
    (∀ m b, papi.deleteById pst.id = .error (.api 404 m b) →
      projectResourceDelete papi pst = true) ∧
    (∀ m b, capi.put st.id
        (normalizeUpdateCheckRequest (buildUpdateCheckRequest plan st)) =
          .error (.api 404 m b) →
      checkResourceUpdate capi base plan st = .failed) ∧
    (∀ m b, papi.put pst.id
        (buildUpdateProjectRequest
          (projectUpdateNameArg pplan.name pst.name)
          (projectUpdateDescArg pplan.description pst.description)) =
          .error (.api 404 m b) →
      projectResourceUpdate papi pplan pst = .failed) := by
  refine ⟨fun m b h => ?_, fun m b h => ?_, fun m b h => ?_,
    fun m b h => ?_, fun m b h => ?_, fun m b h => ?_⟩
  · simp [checkResourceRead, getCheck, h, isNotFoundErr]
  · simp [projectResourceRead, getProject, h, isNotFoundErr]
  · simp [checkResourceDelete, deleteCheck, h, isNotFoundErr]
  · simp [projectResourceDelete, deleteProject, h, isNotFoundErr]
  · simp [checkResourceUpdate, updateCheck, h]
  · simp [projectResourceUpdate, updateProject, h]

/-- Witness for claim C7 against oracles answering 404 everywhere: the
check read removes from state, the project delete succeeds, the check
update fails. -/
theorem notFoundHandling_witness :
    checkResourceRead notFoundCheckApi "https://ping.pakyas.com"
      exampleCheckState = .removed ∧
    projectResourceDelete notFoundProjectApi exampleProjectModel = true ∧
    checkResourceUpdate notFoundCheckApi "https://ping.pakyas.com"
      exampleCheckStateTagged exampleCheckState = .failed := by
  have h := notFoundHandling notFoundCheckApi notFoundProjectApi
    "https://ping.pakyas.com" exampleCheckState exampleCheckStateTagged
    exampleProjectModel exampleProjectModel
  exact ⟨h.1 "not found" "" rfl, h.2.2.1 "not found" "" rfl,
    h.2.2.2.2.1 "not found" "" rfl⟩

/-- Claim C8: when the write and the subsequent GET succeed, create and
update (for both kinds) return exactly the GET's canonical resource
(with the check accessor's tag normalization), never the raw write
response, and the trace is write-then-fetch. -/
theorem readAfterWrite (capi : CheckApi) (papi : ProjectApi)
    (req : CreateCheckRequest) (ur : UpdateCheckRequest) (cid : String)
    (orgId pname : String) (pdesc : Option String) (pid : String)
    (pn pd : Option String) :
    (∀ c g, capi.post (normalizeCreateCheckRequest req) = .ok c →
      capi.getById c.id = .ok g →
      createCheck capi req =
        (.ok { g with tags := some (normalizeTags g.tags) },
          [.post (normalizeCreateCheckRequest req), .fetch c.id])) ∧
    (∀ g, capi.put cid (normalizeUpdateCheckRequest ur) = .ok () →
      capi.getById cid = .ok g →
      updateCheck capi cid ur =
        (.ok { g with tags := some (normalizeTags g.tags) },
          [.put cid (normalizeUpdateCheckRequest ur), .fetch cid])) ∧
    (∀ p q, papi.post (buildCreateProjectRequest orgId pname pdesc) =
        .ok p →
      papi.getById p.id = .ok q →
      createProject papi orgId pname pdesc =
        (.ok q, [.post (buildCreateProjectRequest orgId pname pdesc),
          .fetch p.id])) ∧
    (∀ q, papi.put pid (buildUpdateProjectRequest pn pd) = .ok () →
      papi.getById pid = .ok q →
      updateProject papi pid pn pd =
        (.ok q, [.put pid (buildUpdateProjectRequest pn pd),
          .fetch pid])) := by
  refine ⟨fun c g h1 h2 => ?_, fun g h1 h2 => ?_, fun p q h1 h2 => ?_,
    fun q h1 h2 => ?_⟩
  · simp [createCheck, getCheck, h1, h2]
  · simp [updateCheck, getCheck, h1, h2]
  · simp [createProject, getProject, h1, h2]
  · simp [updateProject, getProject, h1, h2]

/-- Witness for claim C8: against oracles whose writes echo a sparse
resource and whose reads return the canonical one, create and update
both return the canonical resource, not the write echo. -/
theorem readAfterWrite_witness :
    createCheck okCheckApi exampleCreateCheckReq =
      (.ok { canonicalCheck with
        tags := some (normalizeTags canonicalCheck.tags) },
        [.post (normalizeCreateCheckRequest exampleCreateCheckReq),
          .fetch rawWriteCheck.id]) ∧
    createProject okProjectApi "org-1" "Production" none =
      (.ok canonicalProject,
        [.post (buildCreateProjectRequest "org-1" "Production" none),
          .fetch rawWriteProject.id]) := by
  have h := readAfterWrite okCheckApi okProjectApi exampleCreateCheckReq
    exampleUpdateCheckReq "chk-9" "org-1" "Production" none "prj-9"
    none none
  exact ⟨h.1 rawWriteCheck canonicalCheck rfl rfl,
    h.2.2.1 rawWriteProject canonicalProject rfl rfl⟩

/-- Claim C10: at the heap level `normalizeTags` allocates a fresh array
(its reference is outside the caller's heap), writes the sorted copy
there, and leaves every pre-existing array — in particular the caller's
tag slice — byte-for-byte unchanged. -/
theorem normalizeTagsHeap_frame (σ : Store) (src : Nat)
    (h : src < σ.length) :
    (∀ i, i < σ.length →
      ((normalizeTagsHeap σ (some src)).1)[i]? = σ[i]?) ∧
    ((normalizeTagsHeap σ (some src)).1)[src]? = σ[src]? ∧
    σ.length ≤ (normalizeTagsHeap σ (some src)).2 ∧
    ((normalizeTagsHeap σ (some src)).1)[(normalizeTagsHeap σ (some src)).2]?
      = some (sortStrings (σ.getD src [])) ∧
    (∀ i, i < σ.length →
      ((normalizeTagsHeap σ none).1)[i]? = σ[i]?) := by
  have frame : ∀ i, i < σ.length →
      ((normalizeTagsHeap σ (some src)).1)[i]? = σ[i]? := by
    intro i hi
    have hne : σ.length ≠ i := by omega
    simp only [normalizeTagsHeap, allocArray, copyInto, sortInPlace]
    rw [List.getElem?_set_ne hne, List.getElem?_set_ne hne,
      List.getElem?_append]
    simp [hi]
  refine ⟨frame, frame src h, ?_, ?_, ?_⟩
  · simp [normalizeTagsHeap, allocArray]
  · simp only [normalizeTagsHeap, allocArray, copyInto, sortInPlace]
    rw [List.getElem?_set_self (by simp)]
    have hinner : ((σ ++ [List.replicate (σ.getD src []).length ""]).set
        σ.length (σ.getD src [])).getD σ.length [] = σ.getD src [] := by
      rw [List.getD_eq_getElem?_getD, List.getElem?_set_self (by simp)]
      rfl
    rw [hinner]
  · intro i hi
    simp [normalizeTagsHeap, allocArray, List.getElem?_append, hi]

/-- Witness for claim C10 on the one-array heap holding
`["database", "backup"]`: after normalization the caller's array still
holds `["database", "backup"]` in the original order, and the returned
reference is a fresh one. -/
theorem normalizeTagsHeap_frame_witness :
    0 < ([["database", "backup"]] : Store).length ∧
    ((normalizeTagsHeap [["database", "backup"]] (some 0)).1)[0]? =
      some ["database", "backup"] ∧
    ([["database", "backup"]] : Store).length ≤
      (normalizeTagsHeap [["database", "backup"]] (some 0)).2 := by
  have h := normalizeTagsHeap_frame [["database", "backup"]] 0 (by decide)
  exact ⟨by decide, h.2.1.trans rfl, h.2.2.1⟩

end Pakyas
